import Mathlib

/-!
Shallow embedding of the OpenGL context layer in
`src/gui/kernel/qopenglcontext.cpp`: `QOpenGLContext` (creation, make-current,
done-current, swap-buffers), `QOpenGLContextGroup` (share-group bookkeeping)
and `QOpenGLSharedResource` (deferred deletion of shared GL resources).

Pointers to heap objects are modelled as natural-number identifiers resolved
through finite maps inside a global state `GLState`; the platform
(`QPlatformOpenGLContext`, the native drivers) is modelled by oracle values
passed to the operations (the result of `createPlatformOpenGLContext`, the
boolean result of the native `makeCurrent`).  Externally visible native calls
and toolkit warnings are collected in an event list.
-/

namespace QtGL

/-- Identifier of a `QOpenGLContext` object. -/
abbrev CtxId := Nat

/-- Identifier of a `QOpenGLContextGroup` object. -/
abbrev GroupId := Nat

/-- Identifier of a `QOpenGLSharedResource` object. -/
abbrev ResId := Nat

/-- Identifier of a thread. -/
abbrev ThreadId := Nat

/-- The observable part of a `QPlatformOpenGLContext`: its `isValid()` and
`isSharing()` results.  Both are fixed by the platform when the context is
created. -/
structure PlatformOpenGLContext where
  valid : Bool
  sharing : Bool
deriving DecidableEq, Repr

/-- The observable part of a `QSurface`: whether `surfaceHandle()` is non-null
and the result of `supportsOpenGL()`. -/
structure QSurface where
  hasHandle : Bool
  supportsOpenGL : Bool
deriving DecidableEq, Repr

/-- The fields of `QOpenGLContextPrivate` the reviewed code reads or writes:
`platformGLContext`, `shareContext`, `shareGroup`, `surface`, plus the
`QObject` thread affinity used by the `makeCurrent` thread check. -/
structure QOpenGLContextData where
  platformGLContext : Option PlatformOpenGLContext
  shareContext : Option CtxId
  shareGroup : Option GroupId
  surface : Option QSurface
  thread : ThreadId
deriving DecidableEq, Repr

/-- The fields of `QOpenGLContextGroupPrivate`: `m_context`, `m_shares`,
`m_refs`, `m_sharedResources`, `m_pendingDeletion`.  (The private header
initialises `m_context` to null and `m_refs` to zero; `QList` members start
empty.) -/
structure QOpenGLContextGroupData where
  m_context : Option CtxId
  m_shares : List CtxId
  m_refs : Nat
  m_sharedResources : List ResId
  m_pendingDeletion : List ResId
deriving DecidableEq, Repr

/-- A fresh `QOpenGLContextGroup` as built by its constructor. -/
def newGroupData : QOpenGLContextGroupData :=
  { m_context := none, m_shares := [], m_refs := 0,
    m_sharedResources := [], m_pendingDeletion := [] }

/-- The state of a `QOpenGLSharedResource`: its `m_group` back pointer and
whether `invalidateResource()` has been called on it. -/
structure QOpenGLSharedResourceData where
  m_group : Option GroupId
  invalidated : Bool
deriving DecidableEq, Repr

/-- Externally visible effects of the operations: the virtual
`freeResource(ctx)` call on a shared resource followed by its deletion, the
virtual `invalidateResource()` call, the `qWarning` messages, and the native
`QPlatformOpenGLContext::swapBuffers` call. -/
inductive Event where
  | freeResource (r : ResId) (c : CtxId)
  | invalidateResource (r : ResId)
  | warnNonOpenGLSurfaceMakeCurrent
  | warnNullSurfaceSwap
  | warnNonOpenGLSurfaceSwap
  | nativeSwap (c : CtxId)
deriving DecidableEq, Repr

/-- Global state: the live `QOpenGLContext`, `QOpenGLContextGroup` and
`QOpenGLSharedResource` objects, the per-thread `QThreadStorage` slot
(`none` = no `QGuiGLThreadContext` allocated yet for that thread), whether
`Qt::AA_DontCheckOpenGLContextThreadAffinity` is set on the application, and
an allocator for fresh group identifiers. -/
structure GLState where
  contexts : CtxId → Option QOpenGLContextData
  groups : GroupId → Option QOpenGLContextGroupData
  resources : ResId → Option QOpenGLSharedResourceData
  threadCtx : ThreadId → Option (Option CtxId)
  affinityCheckDisabled : Bool
  nextGroup : GroupId

/-- Point update of a finite map. -/
def upd {α : Type} (f : Nat → α) (k : Nat) (v : α) : Nat → α :=
  fun n => if n = k then v else f n

/-- `QOpenGLContext::currentContext()`: the context recorded in the calling
thread's `QGuiGLThreadContext`, or null when none was allocated. -/
def currentContext (st : GLState) (t : ThreadId) : Option CtxId :=
  match st.threadCtx t with
  | none => none
  | some c => c

/-- `QOpenGLContextPrivate::setCurrentContext`: stores `c` in the calling
thread's slot and returns the previously current context.  When no
`QGuiGLThreadContext` exists yet, storing null is a no-op returning null,
otherwise a fresh slot is allocated first.  (The "no QTLS available" branch,
which needs a thread without a `QThread`, is outside the model.) -/
def setCurrentContext (st : GLState) (t : ThreadId) (c : Option CtxId) :
    GLState × Option CtxId :=
  match st.threadCtx t with
  | none =>
    match c with
    | none => (st, none)
    | some _ => ({ st with threadCtx := upd st.threadCtx t (some c) }, none)
  | some prev => ({ st with threadCtx := upd st.threadCtx t (some c) }, prev)

/-- `QOpenGLContext::isValid()`: `d->platformGLContext &&
d->platformGLContext->isValid()`. -/
def isValid (st : GLState) (c : CtxId) : Bool :=
  match st.contexts c with
  | none => false
  | some cd =>
    match cd.platformGLContext with
    | none => false
    | some p => p.valid

/-- `QOpenGLContext::shareGroup()` for the context `c`. -/
def ctxShareGroup (st : GLState) (c : CtxId) : Option GroupId :=
  (st.contexts c).bind (fun cd => cd.shareGroup)

/-- `QOpenGLContext::shareContext()` for the context `c`. -/
def ctxShareContext (st : GLState) (c : CtxId) : Option CtxId :=
  (st.contexts c).bind (fun cd => cd.shareContext)

/-- `QOpenGLContext::surface()` for the context `c`. -/
def ctxSurface (st : GLState) (c : CtxId) : Option QSurface :=
  (st.contexts c).bind (fun cd => cd.surface)

/-- `QObject::thread()` for the context `c`. -/
def ctxThread (st : GLState) (c : CtxId) : Option ThreadId :=
  (st.contexts c).map (fun cd => cd.thread)

/-- `m_group` of the shared resource `r`. -/
def resGroup (st : GLState) (r : ResId) : Option GroupId :=
  (st.resources r).bind (fun rd => rd.m_group)

/-- `m_pendingDeletion` of the group `g` (empty when the group is gone). -/
def pendingOf (st : GLState) (g : GroupId) : List ResId :=
  match st.groups g with
  | none => []
  | some gd => gd.m_pendingDeletion

/-- `QOpenGLContext::areSharing(first, second)`:
`first->shareGroup() == second->shareGroup()` (pointer comparison). -/
def areSharing (st : GLState) (first second : CtxId) : Bool :=
  ctxShareGroup st first == ctxShareGroup st second

/-- Update the record of context `c` (no-op when `c` is not live). -/
def updCtx (st : GLState) (c : CtxId)
    (f : QOpenGLContextData → QOpenGLContextData) : GLState :=
  match st.contexts c with
  | none => st
  | some cd => { st with contexts := upd st.contexts c (some (f cd)) }

/-- `QOpenGLContextGroupPrivate::deletePendingResources(ctx)`: atomically take
the pending-deletion list, clear it, then call `freeResource(ctx)` on each
entry and delete it. -/
def deletePendingResources (st : GLState) (g : GroupId) (c : CtxId) :
    GLState × List Event :=
  match st.groups g with
  | none => (st, [])
  | some gd =>
    let pending := gd.m_pendingDeletion
    let st₁ : GLState :=
      { st with
        groups := upd st.groups g (some { gd with m_pendingDeletion := [] }),
        resources := fun r => if r ∈ pending then none else st.resources r }
    (st₁, pending.map (fun r => Event.freeResource r c))

/-- `d->shareGroup->d_func()->deletePendingResources(this)` as called from
`makeCurrent`/`doneCurrent`; a context reaching those call sites is valid,
hence created, hence has a share group, so the null case is unreachable. -/
def drainGroup (st : GLState) (c : CtxId) : GLState × List Event :=
  match ctxShareGroup st c with
  | none => (st, [])
  | some g => deletePendingResources st g c

/-- `QOpenGLContext::doneCurrent()` executed by thread `t`: returns early on
an invalid context; drains the share group's pending deletions when this
context is the thread's current one; then calls the native `doneCurrent`,
clears the thread's current context and the context's surface. -/
def doneCurrent (st : GLState) (c : CtxId) (t : ThreadId) :
    GLState × List Event :=
  if isValid st c = false then (st, [])
  else
    let step :=
      if currentContext st t = some c then drainGroup st c else (st, [])
    let st₂ := (setCurrentContext step.1 t none).1
    (updCtx st₂ c (fun cd => { cd with surface := none }), step.2)

/-- The condition of the `qFatal` thread-affinity check in `makeCurrent`:
`!qApp->testAttribute(Qt::AA_DontCheckOpenGLContextThreadAffinity) &&
thread() != QThread::currentThread()`. -/
def affinityFatal (st : GLState) (c : CtxId) (t : ThreadId) : Bool :=
  !st.affinityCheckDisabled && (ctxThread st c != some t)

/-- Result of `QOpenGLContext::makeCurrent`: either the `qFatal` thread
affinity abort, or a boolean return together with the post state and the
emitted events. -/
inductive MCOutcome where
  | fatal
  | ret (b : Bool) (st : GLState) (evs : List Event)

/-- The boolean a non-aborting `makeCurrent` call returned. -/
def MCOutcome.returned : MCOutcome → Option Bool
  | .fatal => none
  | .ret b _ _ => some b

/-- `QOpenGLContext::makeCurrent(surface)` executed by thread `t`, where
`platOk` is the oracle result of the native
`QPlatformOpenGLContext::makeCurrent` call.  Mirrors the source order:
invalid check, thread-affinity `qFatal`, null surface → `doneCurrent`,
missing native surface handle, non-OpenGL surface (with warning), native
make-current failure; on success the thread's current context and the
context's surface are set and the share group's pending deletions drained.
(The driver-specific glyph-cache workaround detection touches no modelled
state.) -/
def makeCurrent (st : GLState) (c : CtxId) (surface : Option QSurface)
    (platOk : Bool) (t : ThreadId) : MCOutcome :=
  if isValid st c = false then .ret false st []
  else if affinityFatal st c t then .fatal
  else
    match surface with
    | none =>
      let step := doneCurrent st c t
      .ret true step.1 step.2
    | some s =>
      if s.hasHandle = false then .ret false st []
      else if s.supportsOpenGL = false then
        .ret false st [Event.warnNonOpenGLSurfaceMakeCurrent]
      else if platOk = false then .ret false st []
      else
        let st₁ := (setCurrentContext st t (some c)).1
        let st₂ := updCtx st₁ c (fun cd => { cd with surface := some s })
        let step := drainGroup st₂ c
        .ret true step.1 step.2

/-- `QOpenGLSharedResource::free()` executed by thread `t`: with a null
`m_group` the resource deletes itself immediately; otherwise it is moved from
the group's `m_sharedResources` onto `m_pendingDeletion`, and the pending list
is drained right away exactly when the thread's current context belongs to
the group. -/
def free (st : GLState) (r : ResId) (t : ThreadId) : GLState × List Event :=
  match st.resources r with
  | none => (st, [])
  | some rd =>
    match rd.m_group with
    | none => ({ st with resources := upd st.resources r none }, [])
    | some g =>
      match st.groups g with
      | none => (st, [])
      | some gd =>
        let gd₁ := { gd with
          m_sharedResources := gd.m_sharedResources.erase r,
          m_pendingDeletion := gd.m_pendingDeletion ++ [r] }
        let st₁ := { st with groups := upd st.groups g (some gd₁) }
        match currentContext st₁ t with
        | some cur =>
          if ctxShareGroup st₁ cur = some g then deletePendingResources st₁ g cur
          else (st₁, [])
        | none => (st₁, [])

/-- `QOpenGLContextGroupPrivate::addContext(ctx)`: `m_refs.ref(); m_shares <<
ctx`. -/
def addContext (st : GLState) (g : GroupId) (c : CtxId) : GLState :=
  match st.groups g with
  | none => st
  | some gd =>
    { st with groups := upd st.groups g (some { gd with
        m_refs := gd.m_refs + 1, m_shares := gd.m_shares ++ [c] }) }

/-- `QOpenGLContextGroupPrivate::cleanup()`: calls `invalidateResource()` on
every resource still in `m_sharedResources` and nulls its `m_group`, then
deletes every resource on `m_pendingDeletion` (without `freeResource`), and
clears both lists.  (The `m_resources` multi-group cache hook is not
modelled; no claim depends on it.) -/
def cleanup (st : GLState) (g : GroupId) : GLState × List Event :=
  match st.groups g with
  | none => (st, [])
  | some gd =>
    let st₁ : GLState :=
      { st with
        resources := fun r =>
          if r ∈ gd.m_sharedResources then
            (st.resources r).map
              (fun rd => { rd with m_group := none, invalidated := true })
          else if r ∈ gd.m_pendingDeletion then none
          else st.resources r,
        groups := upd st.groups g (some { gd with
          m_sharedResources := [], m_pendingDeletion := [] }) }
    (st₁, gd.m_sharedResources.map Event.invalidateResource)

/-- `QOpenGLContextGroupPrivate::removeContext(ctx)`: removes the first
occurrence of `ctx` from `m_shares`, moves `m_context` to the new first share
when it pointed at `ctx`, and when `m_refs.deref()` reaches zero runs
`cleanup()` and deletes the group object.  (`m_refs` is a `Nat` here; a
well-formed caller has `m_refs ≥ 1`.) -/
def removeContext (st : GLState) (g : GroupId) (c : CtxId) :
    GLState × List Event :=
  match st.groups g with
  | none => (st, [])
  | some gd =>
    let shares₁ := gd.m_shares.erase c
    let mctx :=
      if gd.m_context = some c then
        match shares₁ with
        | x :: _ => some x
        | [] => gd.m_context
      else gd.m_context
    let refs₁ := gd.m_refs - 1
    let stUpd := { st with groups := upd st.groups g (some { gd with
        m_shares := shares₁, m_context := mctx, m_refs := refs₁ }) }
    if refs₁ = 0 then
      let step := cleanup stUpd g
      ({ step.1 with groups := upd step.1.groups g none }, step.2)
    else (stUpd, [])

/-- `QOpenGLContextPrivate::adopt(context)`: stores the platform context,
resets `shareContext` to null when the platform context does not report
sharing, then takes the share context's group or a fresh group and registers
the context in it.  (A set share context whose own `shareGroup()` is null
would make the source dereference null in `addContext`; that case is a
no-op registration here.) -/
def adopt (st : GLState) (c : CtxId) (p : PlatformOpenGLContext) : GLState :=
  match st.contexts c with
  | none => st
  | some cd =>
    let shareCtx := if p.sharing then cd.shareContext else none
    match shareCtx with
    | some sc =>
      let gOpt := ctxShareGroup st sc
      let st₁ := { st with contexts := upd st.contexts c (some { cd with
          platformGLContext := some p, shareContext := shareCtx,
          shareGroup := gOpt }) }
      match gOpt with
      | some g => addContext st₁ g c
      | none => st₁
    | none =>
      let g := st.nextGroup
      let st₁ := { st with
        contexts := upd st.contexts c (some { cd with
          platformGLContext := some p, shareContext := none,
          shareGroup := some g }),
        groups := upd st.groups g (some newGroupData),
        nextGroup := g + 1 }
      addContext st₁ g c

/-- `QOpenGLContext::destroy()` executed by thread `t`: emits
`aboutToBeDestroyed` and tears down function wrappers (not modelled), calls
`doneCurrent()` when this is the thread's current context, removes the
context from its share group when it has one, nulls `shareGroup`, and deletes
the platform context. -/
def destroy (st : GLState) (c : CtxId) (t : ThreadId) : GLState × List Event :=
  match st.contexts c with
  | none => (st, [])
  | some _ =>
    let step₁ :=
      if currentContext st t = some c then doneCurrent st c t else (st, [])
    let step₂ :=
      match ctxShareGroup step₁.1 c with
      | some g => removeContext step₁.1 g c
      | none => (step₁.1, [])
    let st₃ := updCtx step₂.1 c (fun cd =>
      { cd with shareGroup := none, platformGLContext := none })
    (st₃, step₁.2 ++ step₂.2)

/-- `QOpenGLContext::create()` executed by thread `t`, where
`platformContext` is the oracle result of
`QPlatformIntegration::createPlatformOpenGLContext`: destroys any existing
platform context first, returns false when the platform produced none, and
otherwise adopts the platform context and returns `isValid()`. -/
def create (st : GLState) (c : CtxId) (t : ThreadId)
    (platformContext : Option PlatformOpenGLContext) :
    GLState × Bool × List Event :=
  match st.contexts c with
  | none => (st, false, [])
  | some cd =>
    let step :=
      if cd.platformGLContext.isSome then destroy st c t else (st, [])
    match platformContext with
    | none => (step.1, false, step.2)
    | some p =>
      let st₂ := adopt step.1 c p
      (st₂, isValid st₂ c, step.2)

/-- `QOpenGLContext::swapBuffers(surface)`: returns silently on an invalid
context, warns on a null or non-OpenGL surface, returns silently on a missing
native surface handle, and otherwise performs the native swap.  (The debug
make-current tracker and the single-buffer `glFlush` touch no modelled
state.) -/
def swapBuffers (st : GLState) (c : CtxId) (surface : Option QSurface) :
    List Event :=
  if isValid st c = false then []
  else
    match surface with
    | none => [Event.warnNullSurfaceSwap]
    | some s =>
      if s.supportsOpenGL = false then [Event.warnNonOpenGLSurfaceSwap]
      else if s.hasHandle = false then []
      else [Event.nativeSwap c]

/-- `QOpenGLContext::handle()` for the context `c`. -/
def ctxHandle (st : GLState) (c : CtxId) : Option PlatformOpenGLContext :=
  (st.contexts c).bind (fun cd => cd.platformGLContext)

/-- The bookkeeping fields of a group that `deletePendingResources` leaves
untouched. -/
def groupCore (gd : QOpenGLContextGroupData) :
    Option CtxId × List CtxId × Nat × List ResId :=
  (gd.m_context, gd.m_shares, gd.m_refs, gd.m_sharedResources)

/-- The state `makeCurrent` computes on its success path before draining the
share group: the thread's current context is set and the context's surface
recorded. -/
def mcSuccessState (st : GLState) (c : CtxId) (s : QSurface) (t : ThreadId) :
    GLState :=
  updCtx (setCurrentContext st t (some c)).1 c
    (fun cd => { cd with surface := some s })

/-! ### Concrete states used by the witnesses -/

/-- A surface with a native handle that supports OpenGL. -/
def surfOK : QSurface := { hasHandle := true, supportsOpenGL := true }

/-- A surface without a native handle. -/
def surfNoHandle : QSurface := { hasHandle := false, supportsOpenGL := true }

/-- A created, valid, non-sharing context living on thread 0, member of
group 5. -/
def ctxA : QOpenGLContextData :=
  { platformGLContext := some { valid := true, sharing := false },
    shareContext := none, shareGroup := some 5, surface := none, thread := 0 }

/-- Group 5 with the single context 1 and the live shared resource 7. -/
def groupA : QOpenGLContextGroupData :=
  { m_context := some 1, m_shares := [1], m_refs := 1,
    m_sharedResources := [7], m_pendingDeletion := [] }

/-- The shared resource 7, attached to group 5. -/
def resA : QOpenGLSharedResourceData := { m_group := some 5, invalidated := false }

/-- Base state: context 1 (group 5, resource 7) exists, no context is current
anywhere. -/
def stBase : GLState :=
  { contexts := upd (fun _ => none) 1 (some ctxA),
    groups := upd (fun _ => none) 5 (some groupA),
    resources := upd (fun _ => none) 7 (some resA),
    threadCtx := fun _ => none,
    affinityCheckDisabled := false,
    nextGroup := 6 }

/-- Like `stBase`, but context 1 is current on thread 0. -/
def stCur : GLState :=
  { stBase with threadCtx := upd (fun _ => none) 0 (some (some 1)) }

/-- A freshly constructed context that has not been created yet. -/
def ctxNew : QOpenGLContextData :=
  { platformGLContext := none, shareContext := none, shareGroup := none,
    surface := none, thread := 0 }

/-- Like `stBase`, with the additional not-yet-created context 2. -/
def stTwo : GLState :=
  { stBase with contexts := upd stBase.contexts 2 (some ctxNew) }

/-! ### Structural lemmas about the operations -/

theorem upd_self {α : Type} (f : Nat → α) (k : Nat) (v : α) : upd f k v k = v := by
  simp [upd]

theorem upd_other {α : Type} (f : Nat → α) (k : Nat) (v : α) (n : Nat)
    (h : n ≠ k) : upd f k v n = f n := by
  simp [upd, h]

theorem scc_currentContext_self (st : GLState) (t : ThreadId) (v : Option CtxId) :
    currentContext (setCurrentContext st t v).1 t = v := by
  unfold setCurrentContext currentContext
  cases h : st.threadCtx t with
  | none =>
    cases v with
    | none => simp [h]
    | some c => simp [upd]
  | some prev => simp [upd]

theorem scc_currentContext_other (st : GLState) (t u : ThreadId)
    (v : Option CtxId) (h : u ≠ t) :
    currentContext (setCurrentContext st t v).1 u = currentContext st u := by
  unfold setCurrentContext currentContext
  cases hs : st.threadCtx t with
  | none =>
    cases v with
    | none => rfl
    | some c => simp [upd, h]
  | some prev => simp [upd, h]

theorem scc_contexts (st : GLState) (t : ThreadId) (v : Option CtxId) :
    (setCurrentContext st t v).1.contexts = st.contexts := by
  unfold setCurrentContext
  cases hs : st.threadCtx t with
  | none => cases v <;> rfl
  | some prev => rfl

theorem scc_groups (st : GLState) (t : ThreadId) (v : Option CtxId) :
    (setCurrentContext st t v).1.groups = st.groups := by
  unfold setCurrentContext
  cases hs : st.threadCtx t with
  | none => cases v <;> rfl
  | some prev => rfl

theorem updCtx_threadCtx (st : GLState) (c : CtxId)
    (f : QOpenGLContextData → QOpenGLContextData) :
    (updCtx st c f).threadCtx = st.threadCtx := by
  unfold updCtx
  cases st.contexts c <;> rfl

theorem updCtx_groups (st : GLState) (c : CtxId)
    (f : QOpenGLContextData → QOpenGLContextData) :
    (updCtx st c f).groups = st.groups := by
  unfold updCtx
  cases st.contexts c <;> rfl

theorem updCtx_ctxShareGroup (st : GLState) (c c' : CtxId)
    (f : QOpenGLContextData → QOpenGLContextData)
    (hf : ∀ cd, (f cd).shareGroup = cd.shareGroup) :
    ctxShareGroup (updCtx st c f) c' = ctxShareGroup st c' := by
  unfold updCtx ctxShareGroup
  cases h : st.contexts c with
  | none => rfl
  | some cd =>
    by_cases hc : c' = c
    · subst hc; simp [upd, h, hf]
    · simp [upd_other _ _ _ _ hc]

theorem currentContext_eq_of_threadCtx {st₁ st₂ : GLState}
    (h : st₁.threadCtx = st₂.threadCtx) (t : ThreadId) :
    currentContext st₁ t = currentContext st₂ t := by
  unfold currentContext
  rw [h]

theorem dpr_events (st : GLState) (g : GroupId) (c : CtxId) :
    (deletePendingResources st g c).2 =
      (pendingOf st g).map (fun r => Event.freeResource r c) := by
  unfold deletePendingResources pendingOf
  cases st.groups g <;> rfl

theorem dpr_threadCtx (st : GLState) (g : GroupId) (c : CtxId) :
    (deletePendingResources st g c).1.threadCtx = st.threadCtx := by
  unfold deletePendingResources
  cases st.groups g <;> rfl

theorem dpr_contexts (st : GLState) (g : GroupId) (c : CtxId) :
    (deletePendingResources st g c).1.contexts = st.contexts := by
  unfold deletePendingResources
  cases st.groups g <;> rfl

theorem dpr_pending_self (st : GLState) (g : GroupId) (c : CtxId) :
    pendingOf (deletePendingResources st g c).1 g = [] := by
  unfold deletePendingResources pendingOf
  cases h : st.groups g with
  | none => simp [h]
  | some gd => simp [upd]

theorem dpr_groupCore (st : GLState) (g : GroupId) (c : CtxId) (g' : GroupId) :
    ((deletePendingResources st g c).1.groups g').map groupCore =
      (st.groups g').map groupCore := by
  unfold deletePendingResources
  cases h : st.groups g with
  | none => simp
  | some gd =>
    by_cases hg : g' = g
    · subst hg; simp [upd, h, groupCore]
    · simp [upd_other _ _ _ _ hg]

theorem drain_eq (st : GLState) (c : CtxId) (g : GroupId)
    (h : ctxShareGroup st c = some g) :
    drainGroup st c = deletePendingResources st g c := by
  unfold drainGroup
  rw [h]

theorem drain_threadCtx (st : GLState) (c : CtxId) :
    (drainGroup st c).1.threadCtx = st.threadCtx := by
  unfold drainGroup
  cases h : ctxShareGroup st c with
  | none => rfl
  | some g => exact dpr_threadCtx st g c

theorem drain_contexts (st : GLState) (c : CtxId) :
    (drainGroup st c).1.contexts = st.contexts := by
  unfold drainGroup
  cases h : ctxShareGroup st c with
  | none => rfl
  | some g => exact dpr_contexts st g c

theorem drain_groupCore (st : GLState) (c : CtxId) (g' : GroupId) :
    ((drainGroup st c).1.groups g').map groupCore =
      (st.groups g').map groupCore := by
  unfold drainGroup
  cases h : ctxShareGroup st c with
  | none => rfl
  | some g => exact dpr_groupCore st g c g'

theorem dc_of_invalid (st : GLState) (c : CtxId) (t : ThreadId)
    (h : isValid st c = false) : doneCurrent st c t = (st, []) := by
  unfold doneCurrent
  simp [h]

theorem dc_of_valid_current (st : GLState) (c : CtxId) (t : ThreadId)
    (hv : isValid st c = true) (hc : currentContext st t = some c) :
    doneCurrent st c t =
      (updCtx (setCurrentContext (drainGroup st c).1 t none).1 c
        (fun cd => { cd with surface := none }), (drainGroup st c).2) := by
  unfold doneCurrent
  simp [hv, hc]

theorem dc_of_valid_notCurrent (st : GLState) (c : CtxId) (t : ThreadId)
    (hv : isValid st c = true) (hc : ¬ currentContext st t = some c) :
    doneCurrent st c t =
      (updCtx (setCurrentContext st t none).1 c
        (fun cd => { cd with surface := none }), []) := by
  unfold doneCurrent
  simp [hv, hc]

theorem dc_currentContext (st : GLState) (c : CtxId) (t : ThreadId)
    (hv : isValid st c = true) :
    currentContext (doneCurrent st c t).1 t = none := by
  by_cases hc : currentContext st t = some c
  · rw [dc_of_valid_current st c t hv hc]
    have h₁ := updCtx_threadCtx (setCurrentContext (drainGroup st c).1 t none).1 c
      (fun cd => { cd with surface := none })
    rw [currentContext_eq_of_threadCtx h₁ t]
    exact scc_currentContext_self _ t none
  · rw [dc_of_valid_notCurrent st c t hv hc]
    have h₁ := updCtx_threadCtx (setCurrentContext st t none).1 c
      (fun cd => { cd with surface := none })
    rw [currentContext_eq_of_threadCtx h₁ t]
    exact scc_currentContext_self _ t none

theorem mc_success (st : GLState) (c : CtxId) (s : QSurface) (platOk : Bool)
    (t : ThreadId) (hv : isValid st c = true)
    (ha : affinityFatal st c t = false) (hh : s.hasHandle = true)
    (hs : s.supportsOpenGL = true) (hp : platOk = true) :
    makeCurrent st c (some s) platOk t =
      .ret true (drainGroup (mcSuccessState st c s t) c).1
        (drainGroup (mcSuccessState st c s t) c).2 := by
  unfold makeCurrent mcSuccessState
  simp [hv, ha, hh, hs, hp]

theorem mc_inv_true (st : GLState) (c : CtxId) (s : QSurface) (platOk : Bool)
    (t : ThreadId) (st₁ : GLState) (evs : List Event)
    (h : makeCurrent st c (some s) platOk t = .ret true st₁ evs) :
    isValid st c = true ∧ affinityFatal st c t = false ∧
    s.hasHandle = true ∧ s.supportsOpenGL = true ∧ platOk = true ∧
    st₁ = (drainGroup (mcSuccessState st c s t) c).1 ∧
    evs = (drainGroup (mcSuccessState st c s t) c).2 := by
  unfold makeCurrent at h
  by_cases hv : isValid st c = false
  · simp [hv] at h
  rw [if_neg hv] at h
  by_cases ha : affinityFatal st c t
  · simp [ha] at h
  rw [Bool.not_eq_false] at hv
  rw [Bool.not_eq_true] at ha
  simp only [ha, Bool.false_eq_true, if_false] at h
  by_cases hh : s.hasHandle = false
  · simp [hh] at h
  rw [if_neg hh] at h
  by_cases hs : s.supportsOpenGL = false
  · simp [hs] at h
  rw [if_neg hs] at h
  by_cases hp : platOk = false
  · simp [hp] at h
  rw [if_neg hp] at h
  rw [Bool.not_eq_false] at hh hs hp
  simp only [MCOutcome.ret.injEq, true_and] at h
  exact ⟨hv, ha, hh, hs, hp, h.1.symm, h.2.symm⟩

theorem mc_inv_false (st : GLState) (c : CtxId) (s : QSurface) (platOk : Bool)
    (t : ThreadId) (st₁ : GLState) (evs : List Event)
    (h : makeCurrent st c (some s) platOk t = .ret false st₁ evs) :
    st₁ = st := by
  unfold makeCurrent at h
  by_cases hv : isValid st c = false
  · simp [hv, MCOutcome.ret.injEq] at h
    exact h.1.symm
  rw [if_neg hv] at h
  by_cases ha : affinityFatal st c t
  · simp [ha] at h
  rw [Bool.not_eq_true] at ha
  simp only [ha, Bool.false_eq_true, if_false] at h
  by_cases hh : s.hasHandle = false
  · simp [hh, MCOutcome.ret.injEq] at h
    exact h.1.symm
  rw [if_neg hh] at h
  by_cases hs : s.supportsOpenGL = false
  · simp [hs, MCOutcome.ret.injEq] at h
    exact h.1.symm
  rw [if_neg hs] at h
  by_cases hp : platOk = false
  · simp [hp, MCOutcome.ret.injEq] at h
    exact h.1.symm
  rw [if_neg hp] at h
  simp [MCOutcome.ret.injEq] at h

theorem mcSuccessState_currentContext_self (st : GLState) (c : CtxId)
    (s : QSurface) (t : ThreadId) :
    currentContext (mcSuccessState st c s t) t = some c := by
  unfold mcSuccessState
  rw [currentContext_eq_of_threadCtx (updCtx_threadCtx _ _ _) t]
  exact scc_currentContext_self st t (some c)

theorem mcSuccessState_currentContext_other (st : GLState) (c : CtxId)
    (s : QSurface) (t u : ThreadId) (h : u ≠ t) :
    currentContext (mcSuccessState st c s t) u = currentContext st u := by
  unfold mcSuccessState
  rw [currentContext_eq_of_threadCtx (updCtx_threadCtx _ _ _) u]
  exact scc_currentContext_other st t u (some c) h

/-! ### The claims -/

/-- Claim C2: each thread has at most one current context.  After a
successful `makeCurrent(ctx, surface)` with a non-null surface the thread's
`currentContext()` is `ctx` (replacing whatever was current before) while
other threads' current contexts are untouched, and after `doneCurrent()` on
the thread's current context, `currentContext()` is null. -/
theorem thread_single_current_context (st : GLState) (c : CtxId) (s : QSurface)
    (platOk : Bool) (t u : ThreadId) (hv : isValid st c = true)
    (ha : affinityFatal st c t = false) (hh : s.hasHandle = true)
    (hs : s.supportsOpenGL = true) (hp : platOk = true) :
    (∃ st₁ evs, makeCurrent st c (some s) platOk t = .ret true st₁ evs ∧
       currentContext st₁ t = some c ∧
       (u ≠ t → currentContext st₁ u = currentContext st u)) ∧
    (currentContext st t = some c →
       currentContext (doneCurrent st c t).1 t = none) := by
  constructor
  · refine ⟨(drainGroup (mcSuccessState st c s t) c).1,
      (drainGroup (mcSuccessState st c s t) c).2,
      mc_success st c s platOk t hv ha hh hs hp, ?_, ?_⟩
    · rw [currentContext_eq_of_threadCtx (drain_threadCtx _ _) t]
      exact mcSuccessState_currentContext_self st c s t
    · intro hu
      rw [currentContext_eq_of_threadCtx (drain_threadCtx _ _) u]
      exact mcSuccessState_currentContext_other st c s t u hu
  · intro _
    exact dc_currentContext st c t hv

/-- Closed instance of `thread_single_current_context` at a concrete state. -/
theorem thread_single_current_context_witness :
    isValid stCur 1 = true ∧ affinityFatal stCur 1 0 = false ∧
    ((∃ st₁ evs, makeCurrent stCur 1 (some surfOK) true 0 = .ret true st₁ evs ∧
        currentContext st₁ 0 = some 1 ∧
        ((1 : ThreadId) ≠ 0 → currentContext st₁ 1 = currentContext stCur 1)) ∧
     (currentContext stCur 0 = some 1 →
        currentContext (doneCurrent stCur 1 0).1 0 = none)) :=
  ⟨by decide, by decide,
   thread_single_current_context stCur 1 surfOK true 0 1 (by decide) (by decide)
     (by decide) (by decide) (by decide)⟩

/-- Claim C3: with a non-null surface (and the thread-affinity abort not
triggered) `makeCurrent` returns false exactly when the context is invalid,
the surface has no native handle, the surface does not support OpenGL (with a
warning emitted), or the native make-current call fails; otherwise it returns
true. -/
theorem makeCurrent_failure_conditions (st : GLState) (c : CtxId)
    (s : QSurface) (platOk : Bool) (t : ThreadId)
    (ha : affinityFatal st c t = false) :
    ∃ b st₁ evs, makeCurrent st c (some s) platOk t = .ret b st₁ evs ∧
      (b = false ↔ isValid st c = false ∨ s.hasHandle = false ∨
        s.supportsOpenGL = false ∨ platOk = false) ∧
      (isValid st c = true → s.hasHandle = true → s.supportsOpenGL = false →
        evs = [Event.warnNonOpenGLSurfaceMakeCurrent]) := by
  cases hv : isValid st c with
  | false =>
    refine ⟨false, st, [], ?_, by simp [hv], ?_⟩
    · unfold makeCurrent; simp [hv]
    · intro h; exact absurd h (by simp)
  | true =>
    cases hh : s.hasHandle with
    | false =>
      refine ⟨false, st, [], ?_, by simp [hh], ?_⟩
      · unfold makeCurrent; simp [hv, ha, hh]
      · intro _ h; exact absurd h (by simp)
    | true =>
      cases hs : s.supportsOpenGL with
      | false =>
        refine ⟨false, st, [Event.warnNonOpenGLSurfaceMakeCurrent], ?_,
          by simp [hs], ?_⟩
        · unfold makeCurrent; simp [hv, ha, hh, hs]
        · intro _ _ _; rfl
      | true =>
        cases hp : platOk with
        | false =>
          refine ⟨false, st, [], ?_, by simp [hp], ?_⟩
          · unfold makeCurrent; simp [hv, ha, hh, hs, hp]
          · intro _ _ h; exact absurd h (by simp)
        | true =>
          refine ⟨true, (drainGroup (mcSuccessState st c s t) c).1,
            (drainGroup (mcSuccessState st c s t) c).2,
            mc_success st c s true t hv ha hh hs rfl,
            by simp [hv, hh, hs], ?_⟩
          intro _ _ h; exact absurd h (by simp)

/-- Closed instance of `makeCurrent_failure_conditions` at a concrete state:
a valid context and a surface with no native handle. -/
theorem makeCurrent_failure_conditions_witness :
    affinityFatal stBase 1 0 = false ∧
    ∃ b st₁ evs, makeCurrent stBase 1 (some surfNoHandle) true 0 = .ret b st₁ evs ∧
      (b = false ↔ isValid stBase 1 = false ∨ surfNoHandle.hasHandle = false ∨
        surfNoHandle.supportsOpenGL = false ∨ (true : Bool) = false) ∧
      (isValid stBase 1 = true → surfNoHandle.hasHandle = true →
        surfNoHandle.supportsOpenGL = false →
        evs = [Event.warnNonOpenGLSurfaceMakeCurrent]) :=
  ⟨by decide, makeCurrent_failure_conditions stBase 1 surfNoHandle true 0 (by decide)⟩

/-- Claim C4: calling `makeCurrent` on a valid context from a thread other
than the context's own, with `Qt::AA_DontCheckOpenGLContextThreadAffinity`
not set, reaches the `qFatal` abort; called on the context's own thread the
fatal branch is unreachable. -/
theorem makeCurrent_thread_affinity_fatal (st : GLState) (c : CtxId)
    (t : ThreadId) (surface : Option QSurface) (platOk : Bool) :
    (isValid st c = true → st.affinityCheckDisabled = false →
       ctxThread st c ≠ some t → makeCurrent st c surface platOk t = .fatal) ∧
    (ctxThread st c = some t → makeCurrent st c surface platOk t ≠ .fatal) := by
  constructor
  · intro hv hd hth
    unfold makeCurrent
    have ha : affinityFatal st c t = true := by
      unfold affinityFatal
      simp [hd, bne_iff_ne, hth]
    simp [hv, ha]
  · intro hth
    have ha : affinityFatal st c t = false := by
      unfold affinityFatal
      simp [hth]
    unfold makeCurrent
    by_cases hv : isValid st c = false
    · simp [hv]
    · cases surface with
      | none => simp [hv, ha]
      | some s =>
        by_cases hh : s.hasHandle = false
        · simp [hv, ha, hh]
        · by_cases hs : s.supportsOpenGL = false
          · simp [hv, ha, hh, hs]
          · by_cases hp : platOk = false
            · simp [hv, ha, hh, hs, hp]
            · simp [hv, ha, hh, hs, hp]

/-- Closed instance of `makeCurrent_thread_affinity_fatal`: context 1 lives
on thread 0, so a call from thread 1 aborts and a call from thread 0 does
not. -/
theorem makeCurrent_thread_affinity_fatal_witness :
    isValid stBase 1 = true ∧ stBase.affinityCheckDisabled = false ∧
    ctxThread stBase 1 ≠ some 1 ∧
    makeCurrent stBase 1 (some surfOK) true 1 = .fatal ∧
    makeCurrent stBase 1 (some surfOK) true 0 ≠ .fatal :=
  ⟨by decide, by decide, by decide,
   (makeCurrent_thread_affinity_fatal stBase 1 1 (some surfOK) true).1
     (by decide) (by decide) (by decide),
   (makeCurrent_thread_affinity_fatal stBase 1 0 (some surfOK) true).2
     (by decide)⟩

/-- Claim C9: a `makeCurrent` call with a non-null surface that returns false
leaves the observable state unchanged: the post state is the pre state, so in
particular every thread's `currentContext()` and the context's `surface()`
are unchanged. -/
theorem makeCurrent_failure_atomic (st : GLState) (c : CtxId) (s : QSurface)
    (platOk : Bool) (t : ThreadId) (st₁ : GLState) (evs : List Event)
    (h : makeCurrent st c (some s) platOk t = .ret false st₁ evs)
    (u : ThreadId) :
    currentContext st₁ u = currentContext st u ∧
    ctxSurface st₁ c = ctxSurface st c := by
  have he := mc_inv_false st c s platOk t st₁ evs h
  subst he
  exact ⟨rfl, rfl⟩

/-- Closed instance of `makeCurrent_failure_atomic`: the native make-current
call fails on the valid context 1. -/
theorem makeCurrent_failure_atomic_witness :
    currentContext stBase 0 = currentContext stBase 0 ∧
    ctxSurface stBase 1 = ctxSurface stBase 1 :=
  makeCurrent_failure_atomic stBase 1 surfOK false 0 stBase [] rfl 0

/-- Claim C10: `makeCurrent(nullptr)` on a valid context (with the
thread-affinity abort not triggered) behaves exactly like `doneCurrent()` and
returns true; on an invalid context it returns false with the state — in
particular the thread's current context — untouched. -/
theorem makeCurrent_null_surface (st : GLState) (c : CtxId) (t : ThreadId)
    (platOk : Bool) :
    (isValid st c = true → affinityFatal st c t = false →
       makeCurrent st c none platOk t =
         .ret true (doneCurrent st c t).1 (doneCurrent st c t).2) ∧
    (isValid st c = false → makeCurrent st c none platOk t = .ret false st []) := by
  constructor
  · intro hv ha
    unfold makeCurrent
    simp [hv, ha]
  · intro hv
    unfold makeCurrent
    simp [hv]

/-- Closed instance of `makeCurrent_null_surface`: the current, valid context
1 and the invalid context 2. -/
theorem makeCurrent_null_surface_witness :
    isValid stCur 1 = true ∧ affinityFatal stCur 1 0 = false ∧
    makeCurrent stCur 1 none true 0 =
      .ret true (doneCurrent stCur 1 0).1 (doneCurrent stCur 1 0).2 ∧
    makeCurrent stCur 2 none true 0 = .ret false stCur [] :=
  ⟨by decide, by decide,
   (makeCurrent_null_surface stCur 1 0 true).1 (by decide) (by decide),
   (makeCurrent_null_surface stCur 2 0 true).2 (by decide)⟩

/-- Claim C6: the relation decided by `areSharing` — equality of the two
contexts' share groups — is an equivalence relation on created contexts:
reflexive, symmetric and transitive, so it partitions contexts into share
groups. -/
theorem areSharing_equivalence (st : GLState) (a b c : CtxId)
    (ha : (ctxShareGroup st a).isSome = true)
    (hb : (ctxShareGroup st b).isSome = true)
    (hc : (ctxShareGroup st c).isSome = true) :
    areSharing st a a = true ∧
    areSharing st a b = areSharing st b a ∧
    (areSharing st a b = true → areSharing st b c = true →
       areSharing st a c = true) := by
  refine ⟨?_, ?_, ?_⟩
  · simp [areSharing]
  · unfold areSharing
    rw [Bool.eq_iff_iff]
    simp only [beq_iff_eq]
    exact eq_comm
  · unfold areSharing
    simp only [beq_iff_eq]
    exact Eq.trans

/-- Closed instance of `areSharing_equivalence` with the created context 1
in all three positions. -/
theorem areSharing_equivalence_witness :
    (ctxShareGroup stBase 1).isSome = true ∧
    (areSharing stBase 1 1 = true ∧
     areSharing stBase 1 1 = areSharing stBase 1 1 ∧
     (areSharing stBase 1 1 = true → areSharing stBase 1 1 = true →
        areSharing stBase 1 1 = true)) :=
  ⟨by decide,
   areSharing_equivalence stBase 1 1 1 (by decide) (by decide) (by decide)⟩

/-- Claim C7: `swapBuffers(surface)` performs the native swap exactly when
the context is valid, the surface is non-null, supports OpenGL and has a
native handle; a valid context with a null surface or a non-OpenGL surface
produces only a warning, and an invalid context produces nothing. -/
theorem swapBuffers_gating (st : GLState) (c : CtxId)
    (surface : Option QSurface) :
    (Event.nativeSwap c ∈ swapBuffers st c surface ↔
       isValid st c = true ∧ ∃ s, surface = some s ∧
         s.supportsOpenGL = true ∧ s.hasHandle = true) ∧
    (isValid st c = true → surface = none →
       swapBuffers st c surface = [Event.warnNullSurfaceSwap]) ∧
    (∀ s, isValid st c = true → surface = some s → s.supportsOpenGL = false →
       swapBuffers st c surface = [Event.warnNonOpenGLSurfaceSwap]) ∧
    (isValid st c = false → swapBuffers st c surface = []) := by
  unfold swapBuffers
  cases hv : isValid st c with
  | false => simp
  | true =>
    cases surface with
    | none => simp
    | some s =>
      cases hs : s.supportsOpenGL with
      | false => simp [hs]
      | true =>
        cases hh : s.hasHandle with
        | false => simp [hs, hh]
        | true => simp [hs, hh]

/-- Closed instance of `swapBuffers_gating` on the valid context 1 and a
fully usable surface. -/
theorem swapBuffers_gating_witness :
    (Event.nativeSwap 1 ∈ swapBuffers stBase 1 (some surfOK) ↔
       isValid stBase 1 = true ∧ ∃ s, some surfOK = some s ∧
         s.supportsOpenGL = true ∧ s.hasHandle = true) ∧
    (isValid stBase 1 = true → some surfOK = none →
       swapBuffers stBase 1 (some surfOK) = [Event.warnNullSurfaceSwap]) ∧
    (∀ s, isValid stBase 1 = true → some surfOK = some s →
       s.supportsOpenGL = false →
       swapBuffers stBase 1 (some surfOK) = [Event.warnNonOpenGLSurfaceSwap]) ∧
    (isValid stBase 1 = false → swapBuffers stBase 1 (some surfOK) = []) :=
  swapBuffers_gating stBase 1 (some surfOK)

theorem updCtx_contexts_self (st : GLState) (c : CtxId)
    (f : QOpenGLContextData → QOpenGLContextData) (cd : QOpenGLContextData)
    (h : st.contexts c = some cd) :
    (updCtx st c f).contexts c = some (f cd) := by
  unfold updCtx
  rw [h]
  simp [upd]

theorem updCtx_contexts_other (st : GLState) (c c' : CtxId)
    (f : QOpenGLContextData → QOpenGLContextData) (h : c' ≠ c) :
    (updCtx st c f).contexts c' = st.contexts c' := by
  unfold updCtx
  cases st.contexts c with
  | none => rfl
  | some cd => simp [upd_other _ _ _ _ h]

theorem dc_contexts_c (st : GLState) (c : CtxId) (t : ThreadId)
    (cd : QOpenGLContextData) (h : st.contexts c = some cd) :
    ∃ srf, (doneCurrent st c t).1.contexts c = some { cd with surface := srf } := by
  by_cases hv : isValid st c = false
  · rw [dc_of_invalid st c t hv]
    exact ⟨cd.surface, h⟩
  rw [Bool.not_eq_false] at hv
  by_cases hc : currentContext st t = some c
  · rw [dc_of_valid_current st c t hv hc]
    refine ⟨none, ?_⟩
    have h₁ : (setCurrentContext (drainGroup st c).1 t none).1.contexts c = some cd := by
      rw [scc_contexts, drain_contexts]
      exact h
    exact updCtx_contexts_self _ c _ cd h₁
  · rw [dc_of_valid_notCurrent st c t hv hc]
    refine ⟨none, ?_⟩
    have h₁ : (setCurrentContext st t none).1.contexts c = some cd := by
      rw [scc_contexts]
      exact h
    exact updCtx_contexts_self _ c _ cd h₁

theorem cleanup_contexts (st : GLState) (g : GroupId) :
    (cleanup st g).1.contexts = st.contexts := by
  unfold cleanup
  cases st.groups g <;> rfl

theorem rc_contexts (st : GLState) (g : GroupId) (c : CtxId) :
    (removeContext st g c).1.contexts = st.contexts := by
  unfold removeContext
  cases h : st.groups g with
  | none => rfl
  | some gd =>
    dsimp only
    by_cases hr : gd.m_refs - 1 = 0
    · simp only [hr, if_true]
      rw [cleanup_contexts]
    · simp only [hr, if_false]

theorem addContext_contexts (st : GLState) (g : GroupId) (c : CtxId) :
    (addContext st g c).contexts = st.contexts := by
  unfold addContext
  cases st.groups g <;> rfl

theorem destroy_contexts_c (st : GLState) (c : CtxId) (t : ThreadId)
    (cd : QOpenGLContextData) (h : st.contexts c = some cd) :
    ∃ srf, (destroy st c t).1.contexts c =
      some { cd with platformGLContext := none, shareGroup := none,
                     surface := srf } := by
  unfold destroy
  rw [h]
  dsimp only
  by_cases hc : currentContext st t = some c
  · simp only [hc, if_true]
    obtain ⟨srf, hsrf⟩ := dc_contexts_c st c t cd h
    refine ⟨srf, ?_⟩
    cases hg : ctxShareGroup (doneCurrent st c t).1 c with
    | none =>
      dsimp only
      exact updCtx_contexts_self _ c _ _ hsrf
    | some g =>
      dsimp only
      have h₂ : (removeContext (doneCurrent st c t).1 g c).1.contexts c =
          some { cd with surface := srf } := by
        rw [rc_contexts]
        exact hsrf
      exact updCtx_contexts_self _ c _ _ h₂
  · simp only [hc, if_false]
    refine ⟨cd.surface, ?_⟩
    cases hg : ctxShareGroup st c with
    | none =>
      dsimp only
      exact updCtx_contexts_self _ c _ _ h
    | some g =>
      dsimp only
      have h₂ : (removeContext st g c).1.contexts c = some cd := by
        rw [rc_contexts]
        exact h
      exact updCtx_contexts_self _ c _ _ h₂

theorem adopt_isValid (st : GLState) (c : CtxId) (p : PlatformOpenGLContext)
    (cd : QOpenGLContextData) (h : st.contexts c = some cd) :
    isValid (adopt st c p) c = p.valid := by
  unfold adopt
  rw [h]
  dsimp only
  cases hsc : (if p.sharing then cd.shareContext else none) with
  | none =>
    unfold isValid
    rw [addContext_contexts]
    simp [upd]
  | some sc =>
    dsimp only
    cases hg : ctxShareGroup st sc with
    | none =>
      unfold isValid
      simp [upd]
    | some g =>
      dsimp only
      unfold isValid
      rw [addContext_contexts]
      simp [upd]

/-- Claim C5: `create()` propagates native context-creation failure as a
boolean — it returns false when the platform integration produces no platform
context, leaving `handle()` null, and otherwise its return value equals
`isValid()` of the freshly adopted platform context (which is that platform
context's own validity). -/
theorem create_propagates_platform_failure (st : GLState) (c : CtxId)
    (t : ThreadId) (cd : QOpenGLContextData) (hc : st.contexts c = some cd) :
    ((create st c t none).2.1 = false ∧
     ctxHandle (create st c t none).1 c = none) ∧
    (∀ p : PlatformOpenGLContext,
       (create st c t (some p)).2.1 = isValid (create st c t (some p)).1 c ∧
       isValid (create st c t (some p)).1 c = p.valid) := by
  constructor
  · unfold create
    rw [hc]
    dsimp only
    by_cases hps : cd.platformGLContext.isSome = true
    · rw [if_pos hps]
      refine ⟨rfl, ?_⟩
      obtain ⟨srf, hsrf⟩ := destroy_contexts_c st c t cd hc
      unfold ctxHandle
      rw [hsrf]
      rfl
    · rw [if_neg hps]
      refine ⟨rfl, ?_⟩
      have hn : cd.platformGLContext = none := by
        cases hpc : cd.platformGLContext with
        | none => rfl
        | some pc => rw [hpc] at hps; exact absurd rfl hps
      unfold ctxHandle
      rw [hc]
      simp [hn]
  · intro p
    unfold create
    rw [hc]
    dsimp only
    by_cases hps : cd.platformGLContext.isSome = true
    · rw [if_pos hps]
      obtain ⟨srf, hsrf⟩ := destroy_contexts_c st c t cd hc
      exact ⟨rfl, adopt_isValid _ c p _ hsrf⟩
    · rw [if_neg hps]
      exact ⟨rfl, adopt_isValid _ c p _ hc⟩

/-- Closed instance of `create_propagates_platform_failure` on context 1:
platform failure leaves a null handle and returns false; an adopted invalid
platform context makes `create` return its `isValid()`. -/
theorem create_propagates_platform_failure_witness :
    stBase.contexts 1 = some ctxA ∧
    (((create stBase 1 0 none).2.1 = false ∧
      ctxHandle (create stBase 1 0 none).1 1 = none) ∧
     (∀ p : PlatformOpenGLContext,
        (create stBase 1 0 (some p)).2.1 =
          isValid (create stBase 1 0 (some p)).1 1 ∧
        isValid (create stBase 1 0 (some p)).1 1 = p.valid)) :=
  ⟨by decide, create_propagates_platform_failure stBase 1 0 ctxA (by decide)⟩

theorem ctxShareGroup_eq_of_contexts {st₁ st₂ : GLState}
    (h : st₁.contexts = st₂.contexts) (c : CtxId) :
    ctxShareGroup st₁ c = ctxShareGroup st₂ c := by
  unfold ctxShareGroup
  rw [h]

theorem pendingOf_eq_of_groups {st₁ st₂ : GLState}
    (h : st₁.groups = st₂.groups) (g : GroupId) :
    pendingOf st₁ g = pendingOf st₂ g := by
  unfold pendingOf
  rw [h]

theorem mcSuccessState_groups (st : GLState) (c : CtxId) (s : QSurface)
    (t : ThreadId) : (mcSuccessState st c s t).groups = st.groups := by
  unfold mcSuccessState
  rw [updCtx_groups, scc_groups]

theorem mcSuccessState_ctxShareGroup (st : GLState) (c : CtxId) (s : QSurface)
    (t : ThreadId) (c' : CtxId) :
    ctxShareGroup (mcSuccessState st c s t) c' = ctxShareGroup st c' := by
  unfold mcSuccessState
  have h₁ := updCtx_ctxShareGroup (setCurrentContext st t (some c)).1 c c'
    (fun cd => { cd with surface := some s }) (fun cd => rfl)
  rw [h₁]
  exact ctxShareGroup_eq_of_contexts (scc_contexts st t (some c)) c'

theorem pendingOf_upd_self (st : GLState) (g : GroupId)
    (gd : QOpenGLContextGroupData) :
    pendingOf { st with groups := upd st.groups g (some gd) } g =
      gd.m_pendingDeletion := by
  unfold pendingOf
  dsimp only
  rw [upd_self]

theorem free_eq (st : GLState) (r : ResId) (t : ThreadId)
    (rd : QOpenGLSharedResourceData) (g : GroupId)
    (gd : QOpenGLContextGroupData) (hres : st.resources r = some rd)
    (hrg : rd.m_group = some g) (hgd : st.groups g = some gd) :
    free st r t =
      match currentContext st t with
      | some cur =>
        if ctxShareGroup st cur = some g then
          deletePendingResources
            { st with groups := upd st.groups g (some { gd with
                m_sharedResources := gd.m_sharedResources.erase r,
                m_pendingDeletion := gd.m_pendingDeletion ++ [r] }) } g cur
        else
          ({ st with groups := upd st.groups g (some { gd with
              m_sharedResources := gd.m_sharedResources.erase r,
              m_pendingDeletion := gd.m_pendingDeletion ++ [r] }) }, [])
      | none =>
        ({ st with groups := upd st.groups g (some { gd with
            m_sharedResources := gd.m_sharedResources.erase r,
            m_pendingDeletion := gd.m_pendingDeletion ++ [r] }) }, []) := by
  unfold free
  rw [hres]
  dsimp only
  rw [hrg]
  dsimp only
  rw [hgd]
  rfl

/-- Claim C1: deferred deletion of shared resources.  `free()` only moves the
resource onto its group's pending-deletion list, draining the list at once
exactly when the calling thread's current context belongs to the group; a
successful `makeCurrent` drains the pending list of the group of the context
that has just become current (every `freeResource` call it emits names that
context, which is current afterwards and stays in its group); `doneCurrent`
drains only when invoked on the thread's still-current context, with that
context as the `freeResource` argument.  Hence `freeResource` runs only at
moments when a context of the resource's share group is current. -/
theorem sharedResource_deferred_deletion (st : GLState) (t : ThreadId) :
    (∀ r g, resGroup st r = some g → (st.groups g).isSome = true →
      (∀ cur, currentContext st t = some cur → ctxShareGroup st cur = some g →
         (free st r t).2 =
           (pendingOf st g ++ [r]).map (fun x => Event.freeResource x cur) ∧
         pendingOf (free st r t).1 g = []) ∧
      ((∀ cur, currentContext st t = some cur →
          ¬ ctxShareGroup st cur = some g) →
         (free st r t).2 = [] ∧
         pendingOf (free st r t).1 g = pendingOf st g ++ [r])) ∧
    (∀ c s platOk st₁ evs g,
       makeCurrent st c (some s) platOk t = .ret true st₁ evs →
       ctxShareGroup st c = some g →
       evs = (pendingOf st g).map (fun r => Event.freeResource r c) ∧
       currentContext st₁ t = some c ∧ ctxShareGroup st₁ c = some g ∧
       pendingOf st₁ g = [] ∧
       ((∀ r₀, r₀ ∈ pendingOf st g → resGroup st r₀ = some g) →
          ∀ r₀ cur, Event.freeResource r₀ cur ∈ evs →
            cur = c ∧ resGroup st r₀ = some g)) ∧
    (∀ c g, ctxShareGroup st c = some g →
       (isValid st c = true → currentContext st t = some c →
          (doneCurrent st c t).2 =
            (pendingOf st g).map (fun r => Event.freeResource r c)) ∧
       (¬ currentContext st t = some c → (doneCurrent st c t).2 = [])) := by
  refine ⟨?_, ?_, ?_⟩
  · intro r g hr hgs
    have hres : ∃ rd, st.resources r = some rd ∧ rd.m_group = some g := by
      unfold resGroup at hr
      cases h : st.resources r with
      | none => rw [h] at hr; exact absurd hr (by simp)
      | some rd => rw [h] at hr; exact ⟨rd, rfl, hr⟩
    obtain ⟨rd, hres, hrg⟩ := hres
    obtain ⟨gd, hgd⟩ := Option.isSome_iff_exists.mp hgs
    have hfe := free_eq st r t rd g gd hres hrg hgd
    have hpend : pendingOf st g = gd.m_pendingDeletion := by
      unfold pendingOf
      rw [hgd]
    constructor
    · intro cur hcur hgrp
      rw [hfe, hcur]
      dsimp only
      rw [if_pos hgrp]
      refine ⟨?_, dpr_pending_self _ g cur⟩
      rw [dpr_events, pendingOf_upd_self, hpend]
    · intro hno
      rw [hfe]
      cases hcur : currentContext st t with
      | none =>
        dsimp only
        refine ⟨rfl, ?_⟩
        rw [pendingOf_upd_self, hpend]
      | some cur =>
        dsimp only
        rw [if_neg (hno cur hcur)]
        dsimp only
        refine ⟨rfl, ?_⟩
        rw [pendingOf_upd_self, hpend]
  · intro c s platOk st₁ evs g hmc hg
    obtain ⟨hv, ha, hh, hs, hp, hst₁, hevs⟩ :=
      mc_inv_true st c s platOk t st₁ evs hmc
    have hgM : ctxShareGroup (mcSuccessState st c s t) c = some g := by
      rw [mcSuccessState_ctxShareGroup]
      exact hg
    have hdrain := drain_eq (mcSuccessState st c s t) c g hgM
    have hpM : pendingOf (mcSuccessState st c s t) g = pendingOf st g :=
      pendingOf_eq_of_groups (mcSuccessState_groups st c s t) g
    have hevs₂ : evs = (pendingOf st g).map (fun r => Event.freeResource r c) := by
      rw [hevs, hdrain, dpr_events, hpM]
    refine ⟨hevs₂, ?_, ?_, ?_, ?_⟩
    · rw [hst₁, currentContext_eq_of_threadCtx (drain_threadCtx _ _) t]
      exact mcSuccessState_currentContext_self st c s t
    · rw [hst₁, ctxShareGroup_eq_of_contexts (drain_contexts _ _) c]
      exact hgM
    · rw [hst₁, hdrain]
      exact dpr_pending_self _ g c
    · intro hwf r₀ cur hmem
      rw [hevs₂] at hmem
      simp only [List.mem_map] at hmem
      obtain ⟨r₁, hr₁, hinj⟩ := hmem
      cases hinj
      exact ⟨rfl, hwf r₀ hr₁⟩
  · intro c g hg
    constructor
    · intro hv hcur
      rw [dc_of_valid_current st c t hv hcur]
      rw [drain_eq st c g hg, dpr_events]
    · intro hcur
      by_cases hv : isValid st c = false
      · rw [dc_of_invalid st c t hv]
      · rw [Bool.not_eq_false] at hv
        rw [dc_of_valid_notCurrent st c t hv hcur]

/-- Closed instance of `sharedResource_deferred_deletion`: freeing resource 7
while its group's context 1 is current on thread 0 drains immediately with
context 1, and a successful `makeCurrent` on context 1 drains group 5's
(empty) pending list. -/
theorem sharedResource_deferred_deletion_witness :
    resGroup stCur 7 = some 5 ∧ (stCur.groups 5).isSome = true ∧
    currentContext stCur 0 = some 1 ∧ ctxShareGroup stCur 1 = some 5 ∧
    ((free stCur 7 0).2 =
       (pendingOf stCur 5 ++ [7]).map (fun x => Event.freeResource x 1) ∧
     pendingOf (free stCur 7 0).1 5 = []) ∧
    (¬ currentContext stBase 0 = some 1 → (doneCurrent stBase 1 0).2 = []) :=
  ⟨by decide, by decide, by decide, by decide,
   ((sharedResource_deferred_deletion stCur 0).1 7 5 (by decide) (by decide)).1
     1 (by decide) (by decide),
   ((sharedResource_deferred_deletion stBase 0).2.2 1 5 (by decide)).2⟩

theorem dc_groupCore (st : GLState) (c : CtxId) (t : ThreadId) (g' : GroupId) :
    ((doneCurrent st c t).1.groups g').map groupCore =
      (st.groups g').map groupCore := by
  by_cases hv : isValid st c = false
  · rw [dc_of_invalid st c t hv]
  rw [Bool.not_eq_false] at hv
  by_cases hc : currentContext st t = some c
  · rw [dc_of_valid_current st c t hv hc]
    dsimp only
    rw [updCtx_groups, scc_groups]
    exact drain_groupCore st c g'
  · rw [dc_of_valid_notCurrent st c t hv hc]
    dsimp only
    rw [updCtx_groups, scc_groups]

theorem dc_ctxShareGroup (st : GLState) (c : CtxId) (t : ThreadId)
    (cd : QOpenGLContextData) (h : st.contexts c = some cd) :
    ctxShareGroup (doneCurrent st c t).1 c = cd.shareGroup := by
  obtain ⟨srf, hsrf⟩ := dc_contexts_c st c t cd h
  unfold ctxShareGroup
  rw [hsrf]
  rfl

theorem groupCore_map_extract {o₁ o₂ : Option QOpenGLContextGroupData}
    (h : o₁.map groupCore = o₂.map groupCore) (gd : QOpenGLContextGroupData)
    (h₂ : o₂ = some gd) :
    ∃ gd₁, o₁ = some gd₁ ∧ gd₁.m_context = gd.m_context ∧
      gd₁.m_shares = gd.m_shares ∧ gd₁.m_refs = gd.m_refs := by
  subst h₂
  cases o₁ with
  | none => exact absurd h (by simp)
  | some gd₁ =>
    have h₁ : some (groupCore gd₁) = some (groupCore gd) := h
    have h₂ := Option.some.inj h₁
    unfold groupCore at h₂
    simp only [Prod.mk.injEq] at h₂
    exact ⟨gd₁, rfl, h₂.1, h₂.2.1, h₂.2.2.1⟩

theorem addContext_result (st : GLState) (g : GroupId) (c : CtxId)
    (gd : QOpenGLContextGroupData) (hg : st.groups g = some gd) :
    addContext st g c = { st with groups := upd st.groups g (some { gd with
      m_refs := gd.m_refs + 1, m_shares := gd.m_shares ++ [c] }) } := by
  unfold addContext
  rw [hg]

theorem adopt_fresh (st : GLState) (c : CtxId) (p : PlatformOpenGLContext)
    (cd : QOpenGLContextData) (hc : st.contexts c = some cd)
    (hsc : (if p.sharing = true then cd.shareContext else none) = none) :
    adopt st c p =
      addContext
        { st with
          contexts := upd st.contexts c (some { cd with
            platformGLContext := some p, shareContext := none,
            shareGroup := some st.nextGroup }),
          groups := upd st.groups st.nextGroup (some newGroupData),
          nextGroup := st.nextGroup + 1 }
        st.nextGroup c := by
  unfold adopt
  rw [hc]
  dsimp only
  rw [hsc]

theorem adopt_share (st : GLState) (c : CtxId) (p : PlatformOpenGLContext)
    (cd : QOpenGLContextData) (sc : CtxId) (g₀ : GroupId)
    (hc : st.contexts c = some cd)
    (hsc : (if p.sharing = true then cd.shareContext else none) = some sc)
    (hg₀ : ctxShareGroup st sc = some g₀) :
    adopt st c p =
      addContext
        { st with contexts := upd st.contexts c (some { cd with
            platformGLContext := some p, shareContext := some sc,
            shareGroup := some g₀ }) }
        g₀ c := by
  unfold adopt
  rw [hc]
  dsimp only
  rw [hsc]
  dsimp only
  rw [hg₀]

theorem removeContext_last (st : GLState) (g : GroupId) (c : CtxId)
    (gd : QOpenGLContextGroupData) (hg : st.groups g = some gd)
    (hrefs : gd.m_refs = 1) :
    (removeContext st g c).1.groups g = none := by
  unfold removeContext
  rw [hg]
  dsimp only
  rw [hrefs]
  simp only [Nat.sub_self, if_pos]
  rw [upd_self]

theorem removeContext_kept (st : GLState) (g : GroupId) (c : CtxId)
    (gd : QOpenGLContextGroupData) (hg : st.groups g = some gd)
    (hrefs : ¬ gd.m_refs - 1 = 0) :
    ∃ gd', (removeContext st g c).1.groups g = some gd' ∧
      gd'.m_shares = gd.m_shares.erase c := by
  unfold removeContext
  rw [hg]
  dsimp only
  rw [if_neg hrefs]
  refine ⟨{ gd with
      m_shares := gd.m_shares.erase c,
      m_context :=
        if gd.m_context = some c then
          match gd.m_shares.erase c with
          | x :: _ => some x
          | [] => gd.m_context
        else gd.m_context,
      m_refs := gd.m_refs - 1 }, ?_, rfl⟩
  dsimp only
  rw [upd_self]

/-- Claim C8: share-group membership.  After a successful `create()` on a
not-yet-created context, `shareGroup()` is non-null and the context is in the
group's `shares()`; when the platform context does not report sharing,
`shareContext()` is reset to null and a fresh group holding exactly this
context is created; when it does report sharing with a set share context, the
context joins the share context's existing group.  `destroy()` removes the
context from its group — deleting the group object when the last member
leaves — and leaves `shareGroup()` null. -/
theorem shareGroup_membership_invariant (st : GLState) (t : ThreadId) :
    (∀ (c : CtxId) (p : PlatformOpenGLContext) (cd : QOpenGLContextData),
      st.contexts c = some cd → cd.platformGLContext = none →
      p.valid = true →
      (p.sharing = true → ∀ sc, cd.shareContext = some sc →
         ∃ g₀ gd₀, ctxShareGroup st sc = some g₀ ∧ st.groups g₀ = some gd₀) →
      (create st c t (some p)).2.1 = true ∧
      ∃ g, ctxShareGroup (create st c t (some p)).1 c = some g ∧
        (∃ gd, (create st c t (some p)).1.groups g = some gd ∧
           c ∈ gd.m_shares) ∧
        (p.sharing = false →
           ctxShareContext (create st c t (some p)).1 c = none ∧
           ∃ gd, (create st c t (some p)).1.groups g = some gd ∧
             gd.m_shares = [c]) ∧
        (∀ sc g₀ gd₀, p.sharing = true → cd.shareContext = some sc →
           ctxShareGroup st sc = some g₀ → st.groups g₀ = some gd₀ →
           g = g₀ ∧ (create st c t (some p)).1.groups g₀ =
             some { gd₀ with m_refs := gd₀.m_refs + 1,
                             m_shares := gd₀.m_shares ++ [c] })) ∧
    (∀ (c : CtxId) (cd : QOpenGLContextData) (g : GroupId)
       (gd : QOpenGLContextGroupData),
       st.contexts c = some cd → cd.shareGroup = some g →
       st.groups g = some gd → gd.m_refs = gd.m_shares.length →
       gd.m_shares.count c = 1 →
       ctxShareGroup (destroy st c t).1 c = none ∧
       (gd.m_shares.length = 1 → (destroy st c t).1.groups g = none) ∧
       (1 < gd.m_shares.length →
          ∃ gd', (destroy st c t).1.groups g = some gd' ∧
            c ∉ gd'.m_shares)) := by
  constructor
  · intro c p cd hc hnp hvp hwf
    have hstep : create st c t (some p) =
        (adopt st c p, isValid (adopt st c p) c, []) := by
      unfold create
      rw [hc]
      dsimp only
      rw [hnp]
      simp only [Option.isSome_none, Bool.false_eq_true, if_false]
    have hvalid : (create st c t (some p)).2.1 = true := by
      rw [hstep]
      dsimp only
      rw [adopt_isValid st c p cd hc]
      exact hvp
    have hcr : (create st c t (some p)).1 = adopt st c p := by rw [hstep]
    by_cases hps : p.sharing = true
    · cases hscv : cd.shareContext with
      | none =>
        have hsc : (if p.sharing = true then cd.shareContext else none) = none := by
          rw [if_pos hps, hscv]
        have hadopt := adopt_fresh st c p cd hc hsc
        have hF : ({ st with
            contexts := upd st.contexts c (some { cd with
              platformGLContext := some p, shareContext := none,
              shareGroup := some st.nextGroup }),
            groups := upd st.groups st.nextGroup (some newGroupData),
            nextGroup := st.nextGroup + 1 } : GLState).groups st.nextGroup =
            some newGroupData := by
          dsimp only
          rw [upd_self]
        have haddc := addContext_result _ st.nextGroup c newGroupData hF
        refine ⟨hvalid, st.nextGroup, ?_, ?_, ?_, ?_⟩
        · rw [hcr, hadopt]
          unfold ctxShareGroup
          rw [addContext_contexts]
          dsimp only
          rw [upd_self]
          rfl
        · refine ⟨{ newGroupData with m_refs := newGroupData.m_refs + 1,
                                      m_shares := newGroupData.m_shares ++ [c] },
            ?_, ?_⟩
          · rw [hcr, hadopt, haddc]
            dsimp only
            rw [upd_self]
          · exact List.mem_append_right _ (List.mem_singleton_self c)
        · intro hps'
          rw [hps'] at hps
          exact absurd hps (by simp)
        · intro sc g₀ gd₀ _ hsc'
          exact absurd hsc' (by simp)
      | some sc =>
        obtain ⟨g₀, gd₀, hg₀, hgd₀⟩ := hwf hps sc hscv
        have hsc : (if p.sharing = true then cd.shareContext else none) =
            some sc := by
          rw [if_pos hps, hscv]
        have hadopt := adopt_share st c p cd sc g₀ hc hsc hg₀
        have hS : ({ st with contexts := upd st.contexts c (some { cd with
            platformGLContext := some p, shareContext := some sc,
            shareGroup := some g₀ }) } : GLState).groups g₀ = some gd₀ := hgd₀
        have haddc := addContext_result _ g₀ c gd₀ hS
        refine ⟨hvalid, g₀, ?_, ?_, ?_, ?_⟩
        · rw [hcr, hadopt]
          unfold ctxShareGroup
          rw [addContext_contexts]
          dsimp only
          rw [upd_self]
          rfl
        · refine ⟨{ gd₀ with m_refs := gd₀.m_refs + 1,
                             m_shares := gd₀.m_shares ++ [c] }, ?_, ?_⟩
          · rw [hcr, hadopt, haddc]
            dsimp only
            rw [upd_self]
          · exact List.mem_append_right _ (List.mem_singleton_self c)
        · intro hps'
          rw [hps'] at hps
          exact absurd hps (by simp)
        · intro sc' g₀' gd₀' _ hsc' hg₀' hgd₀'
          cases Option.some.inj hsc'
          rw [hg₀] at hg₀'
          cases Option.some.inj hg₀'
          rw [hgd₀] at hgd₀'
          cases Option.some.inj hgd₀'
          refine ⟨rfl, ?_⟩
          rw [hcr, hadopt, haddc]
          dsimp only
          rw [upd_self]
    · rw [Bool.not_eq_true] at hps
      have hsc : (if p.sharing = true then cd.shareContext else none) = none := by
        rw [hps]
        simp
      have hadopt := adopt_fresh st c p cd hc hsc
      have hF : ({ st with
          contexts := upd st.contexts c (some { cd with
            platformGLContext := some p, shareContext := none,
            shareGroup := some st.nextGroup }),
          groups := upd st.groups st.nextGroup (some newGroupData),
          nextGroup := st.nextGroup + 1 } : GLState).groups st.nextGroup =
          some newGroupData := by
        dsimp only
        rw [upd_self]
      have haddc := addContext_result _ st.nextGroup c newGroupData hF
      refine ⟨hvalid, st.nextGroup, ?_, ?_, ?_, ?_⟩
      · rw [hcr, hadopt]
        unfold ctxShareGroup
        rw [addContext_contexts]
        dsimp only
        rw [upd_self]
        rfl
      · refine ⟨{ newGroupData with m_refs := newGroupData.m_refs + 1,
                                    m_shares := newGroupData.m_shares ++ [c] },
          ?_, ?_⟩
        · rw [hcr, hadopt, haddc]
          dsimp only
          rw [upd_self]
        · exact List.mem_append_right _ (List.mem_singleton_self c)
      · intro _
        constructor
        · rw [hcr, hadopt]
          unfold ctxShareContext
          rw [addContext_contexts]
          dsimp only
          rw [upd_self]
          rfl
        · refine ⟨{ newGroupData with m_refs := newGroupData.m_refs + 1,
                                      m_shares := newGroupData.m_shares ++ [c] },
            ?_, rfl⟩
          rw [hcr, hadopt, haddc]
          dsimp only
          rw [upd_self]
      · intro sc g₀ gd₀ hps' _
        rw [hps] at hps'
        exact absurd hps' (by simp)
  · intro c cd g gd hc hsg hgd hrefs hcnt
    by_cases hcur : currentContext st t = some c
    · obtain ⟨srf, hXc⟩ := dc_contexts_c st c t cd hc
      have hXsg : ctxShareGroup (doneCurrent st c t).1 c = some g := by
        rw [dc_ctxShareGroup st c t cd hc]
        exact hsg
      have hdes : (destroy st c t).1 =
          updCtx (removeContext (doneCurrent st c t).1 g c).1 c
            (fun cd => { cd with shareGroup := none,
                                 platformGLContext := none }) := by
        unfold destroy
        rw [hc]
        dsimp only
        rw [if_pos hcur]
        rw [hXsg]
      obtain ⟨gdD, hgdD, _, hDshares, hDrefs⟩ :=
        groupCore_map_extract (dc_groupCore st c t g) gd hgd
      have hX₂c : (removeContext (doneCurrent st c t).1 g c).1.contexts c =
          some { cd with surface := srf } := by
        rw [rc_contexts]
        exact hXc
      refine ⟨?_, ?_, ?_⟩
      · rw [hdes]
        unfold ctxShareGroup
        rw [updCtx_contexts_self _ c _ _ hX₂c]
        rfl
      · intro hlen
        have hrefs1 : gdD.m_refs = 1 := by rw [hDrefs, hrefs, hlen]
        rw [hdes, updCtx_groups]
        exact removeContext_last _ g c gdD hgdD hrefs1
      · intro hlen2
        have hrefsne : ¬ gdD.m_refs - 1 = 0 := by
          rw [hDrefs, hrefs]
          exact Nat.sub_ne_zero_of_lt hlen2
        obtain ⟨gd', hgd', hsh'⟩ := removeContext_kept _ g c gdD hgdD hrefsne
        refine ⟨gd', ?_, ?_⟩
        · rw [hdes, updCtx_groups]
          exact hgd'
        · rw [hsh', hDshares]
          intro hmem
          have h0 : (gd.m_shares.erase c).count c = 0 := by
            rw [List.count_erase_self, hcnt]
          exact absurd hmem (List.count_eq_zero.mp h0)
    · have hXsg : ctxShareGroup st c = some g := by
        unfold ctxShareGroup
        rw [hc]
        exact hsg
      have hdes : (destroy st c t).1 =
          updCtx (removeContext st g c).1 c
            (fun cd => { cd with shareGroup := none,
                                 platformGLContext := none }) := by
        unfold destroy
        rw [hc]
        dsimp only
        rw [if_neg hcur]
        dsimp only
        rw [hXsg]
      have hX₂c : (removeContext st g c).1.contexts c = some cd := by
        rw [rc_contexts]
        exact hc
      refine ⟨?_, ?_, ?_⟩
      · rw [hdes]
        unfold ctxShareGroup
        rw [updCtx_contexts_self _ c _ _ hX₂c]
        rfl
      · intro hlen
        have hrefs1 : gd.m_refs = 1 := by rw [hrefs, hlen]
        rw [hdes, updCtx_groups]
        exact removeContext_last _ g c gd hgd hrefs1
      · intro hlen2
        have hrefsne : ¬ gd.m_refs - 1 = 0 := by
          rw [hrefs]
          exact Nat.sub_ne_zero_of_lt hlen2
        obtain ⟨gd', hgd', hsh'⟩ := removeContext_kept _ g c gd hgd hrefsne
        refine ⟨gd', ?_, ?_⟩
        · rw [hdes, updCtx_groups]
          exact hgd'
        · rw [hsh']
          intro hmem
          have h0 : (gd.m_shares.erase c).count c = 0 := by
            rw [List.count_erase_self, hcnt]
          exact absurd hmem (List.count_eq_zero.mp h0)

/-- Closed instance of `shareGroup_membership_invariant`: creating the fresh
context 2 with a non-sharing platform context, and destroying context 1, the
sole member of group 5. -/
theorem shareGroup_membership_invariant_witness :
    stTwo.contexts 2 = some ctxNew ∧
    (((create stTwo 2 0 (some { valid := true, sharing := false })).2.1 = true ∧
      ∃ g,
        ctxShareGroup
          (create stTwo 2 0 (some { valid := true, sharing := false })).1 2 =
            some g ∧
        (∃ gd,
           (create stTwo 2 0
             (some { valid := true, sharing := false })).1.groups g =
               some gd ∧ 2 ∈ gd.m_shares) ∧
        (({ valid := true, sharing := false } :
            PlatformOpenGLContext).sharing = false →
           ctxShareContext
             (create stTwo 2 0
               (some { valid := true, sharing := false })).1 2 = none ∧
           ∃ gd,
             (create stTwo 2 0
               (some { valid := true, sharing := false })).1.groups g =
                 some gd ∧ gd.m_shares = [2]) ∧
        (∀ sc g₀ gd₀,
           ({ valid := true, sharing := false } :
             PlatformOpenGLContext).sharing = true →
           ctxNew.shareContext = some sc →
           ctxShareGroup stTwo sc = some g₀ → stTwo.groups g₀ = some gd₀ →
           g = g₀ ∧
           (create stTwo 2 0
             (some { valid := true, sharing := false })).1.groups g₀ =
               some { gd₀ with m_refs := gd₀.m_refs + 1,
                               m_shares := gd₀.m_shares ++ [2] })) ∧
     (ctxShareGroup (destroy stTwo 1 0).1 1 = none ∧
      (groupA.m_shares.length = 1 → (destroy stTwo 1 0).1.groups 5 = none) ∧
      (1 < groupA.m_shares.length →
         ∃ gd', (destroy stTwo 1 0).1.groups 5 = some gd' ∧
           1 ∉ gd'.m_shares))) :=
  ⟨by decide,
   (shareGroup_membership_invariant stTwo 0).1 2
     { valid := true, sharing := false } ctxNew (by decide) (by decide)
     (by decide) (fun h => absurd h (by decide)),
   (shareGroup_membership_invariant stTwo 0).2 1 ctxA 5 groupA (by decide)
     (by decide) (by decide) (by decide) (by decide)⟩

end QtGL
